import Mathlib

/-!
A shallow embedding of the moving-average inventory costing and stock-ledger
engine of the oking-inventory application (`src/scripts/seed.js`), together
with theorems checking the specification's claims about it.

The Firestore document store is modelled by association lists keyed by
document id (`String`), one per collection.  JavaScript numbers are modelled
by `Int` (stock quantities, log `change` fields) and `Rat` (money amounts:
unit costs and weighted-average costs; the division in the moving-average
formula is exact rational division).  A Firestore `runTransaction` body is
modelled as a function from the database state to `Except e DBState`: an
exception thrown inside the transaction aborts it, so an `Except.error`
result leaves the caller's state untouched (no partial mutation), while
`Except.ok` returns the wholly committed new state.  `serverTimestamp()`
fields (`createdAt`, `receivedAt`, `shippedAt`, log `timestamp`) carry no
information used by any computation in the source and are not modelled;
log entries are appended in program order, which stands in for their
timestamp order.
-/

unseal Rat.mul Rat.inv Rat.add Rat.sub

namespace OkingInventory

/-- Decidable equality of transaction outcomes, so that concrete runs of
the handlers can be checked by evaluation. -/
instance {E A : Type} [DecidableEq E] [DecidableEq A] :
    DecidableEq (Except E A) := fun x y =>
  match x, y with
  | .error u, .error v =>
    if h : u = v then .isTrue (h ▸ rfl)
    else .isFalse (fun hh => h (Except.error.inj hh))
  | .error _, .ok _ => .isFalse (fun hh => Except.noConfusion hh)
  | .ok _, .error _ => .isFalse (fun hh => Except.noConfusion hh)
  | .ok u, .ok v =>
    if h : u = v then .isTrue (h ▸ rfl)
    else .isFalse (fun hh => h (Except.ok.inj hh))

/-- Lookup of a document by id in a collection (first match wins, as for
unique Firestore document ids). -/
def getDoc {A : Type} : List (String × A) → String → Option A
  | [], _ => none
  | kv :: rest, k => if kv.1 = k then some kv.2 else getDoc rest k

/-- Firestore `transaction.update` / `updateDoc`: overwrite the document at
an id that is already present; absent ids are left untouched (in Firestore
an update of a missing document fails, but every update performed by the
embedded handlers is preceded by a successful read of the same id). -/
def setDoc {A : Type} : List (String × A) → String → A → List (String × A)
  | [], _, _ => []
  | kv :: rest, k, v => (if kv.1 = k then (k, v) else kv) :: setDoc rest k v

/-- Firestore `addDoc`: create a document under a fresh id. -/
def addDoc {A : Type} (m : List (String × A)) (k : String) (v : A) :
    List (String × A) :=
  m ++ [(k, v)]

theorem getDoc_setDoc_self {A : Type} (m : List (String × A)) (k : String)
    (v w : A) (h : getDoc m k = some w) : getDoc (setDoc m k v) k = some v := by
  induction m with
  | nil => simp [getDoc] at h
  | cons kv rest ih =>
    by_cases hk : kv.1 = k
    · simp [getDoc, setDoc, hk]
    · simp only [getDoc, setDoc, hk, if_false, if_neg hk] at h ⊢
      exact ih h

theorem getDoc_setDoc_ne {A : Type} (m : List (String × A)) (k k' : String)
    (v : A) (h : k' ≠ k) : getDoc (setDoc m k v) k' = getDoc m k' := by
  induction m with
  | nil => simp [getDoc, setDoc]
  | cons kv rest ih =>
    by_cases hk : kv.1 = k
    · have : k ≠ k' := fun he => h he.symm
      simp [getDoc, setDoc, hk, this, ih]
    · simp [getDoc, setDoc, hk, ih]

theorem getDoc_setDoc_isSome {A : Type} (m : List (String × A))
    (k k' : String) (v : A) :
    (getDoc (setDoc m k v) k').isSome = (getDoc m k').isSome := by
  induction m with
  | nil => simp [getDoc, setDoc]
  | cons kv rest ih =>
    by_cases hk : kv.1 = k
    · by_cases hk' : k = k'
      · simp [getDoc, setDoc, hk, hk']
      · simp [getDoc, setDoc, hk, hk', ih]
    · simp only [getDoc, setDoc, hk, if_false, if_neg hk]
      by_cases hk' : kv.1 = k'
      · simp [hk']
      · simp [hk', ih]

theorem getDoc_addDoc_of_some {A : Type} (m : List (String × A))
    (k k' : String) (v w : A) (h : getDoc m k' = some w) :
    getDoc (addDoc m k v) k' = some w := by
  induction m with
  | nil => simp [getDoc] at h
  | cons kv rest ih =>
    by_cases hk : kv.1 = k'
    · simp only [getDoc, hk, if_true] at h
      simp [addDoc, getDoc, hk, h]
    · simp only [getDoc, hk, if_false, if_neg hk] at h
      simpa [addDoc, getDoc, hk] using ih h

theorem getDoc_addDoc_ne {A : Type} (m : List (String × A)) (k k' : String)
    (v : A) (h : k' ≠ k) : getDoc (addDoc m k v) k' = getDoc m k' := by
  induction m with
  | nil =>
    have : k ≠ k' := fun he => h he.symm
    simp [getDoc, addDoc, this]
  | cons kv rest ih =>
    by_cases hk : kv.1 = k'
    · simp [addDoc, getDoc, hk]
    · simpa [addDoc, getDoc, hk] using ih

/-- A product document: the fields of the `products` collection read or
written by the costing engine.  Products are created by `handleAdd`
(line 799) with `stock = 0`, `averageCost = 0`, `cost = 0`; the
informational fields (`name`, `sku`, tier prices, `lowStockThreshold`,
`createdAt`) are never read by the movement handlers and are not modelled. -/
structure Product where
  stock : Int
  averageCost : Rat
  cost : Rat
  deriving DecidableEq

/-- One line item of an order, as built by `OrderForm` (line 1277):
`{ productId, quantity, name, price, cost }`.  `costAtSale` is absent on
creation and stamped by `handleShipOrder` (line 1521). -/
structure LineItem where
  productId : String
  name : String
  quantity : Int
  cost : Rat
  price : Rat
  costAtSale : Option Rat
  deriving DecidableEq

/-- An order document (purchase or sales): the fields read or written by the
movement handlers. -/
structure Order where
  id : String
  orderNumber : String
  status : String
  items : List LineItem
  deriving DecidableEq

/-- An `inventoryLogs` document as written at lines 1171 and 1525. -/
structure InventoryLogEntry where
  productId : String
  productName : String
  entryType : String
  change : Int
  newStock : Int
  relatedDoc : String
  deriving DecidableEq

/-- A `costLogs` document as written at line 1178. -/
structure CostLogEntry where
  productId : String
  productName : String
  entryType : String
  relatedDoc : String
  oldAvgCost : Rat
  newAvgCost : Rat
  deriving DecidableEq

/-- The database state: the collections touched by the costing core. -/
structure DBState where
  products : List (String × Product)
  purchaseOrders : List (String × Order)
  salesOrders : List (String × Order)
  invLogs : List (InventoryLogEntry)
  costLogs : List (CostLogEntry)
  deriving DecidableEq

/-- Failure modes of the receive transaction (`handleReceiveItems`).  The
source throws one message for a missing or already-received order
(line 1155) and one for a missing product (line 1160); there is no quantity
check of any kind in the transaction. -/
inductive ReceiveError where
  | orderNotReceivable
  | productNotFound
  deriving DecidableEq

/-- Failure modes of the ship transaction (`handleShipOrder`).  The single
throw at line 1512 covers both a missing product and insufficient stock;
`orderMissing` models the Firestore failure of `transaction.update` on a
missing sales-order document (line 1532).  There is no status guard in the
transaction, hence no `orderNotShippable` error exists in the code. -/
inductive ShipError where
  | insufficientStock
  | orderMissing
  deriving DecidableEq

/-- Model of JavaScript `x.toFixed(5)` (line 1176) on the non-negative
amounts compared there: two non-negative numbers render to the same
5-decimal string exactly when rounding them to units of `10 ^ (-5)`
(half away from zero) gives the same integer. -/
def toFixed5 (x : Rat) : Int := (x * 100000 + 1 / 2).floor

/-- The new stock after receiving a line item (line 1165):
`newStock = oldStock + item.quantity`. -/
def newStockFor (p : Product) (item : LineItem) : Int :=
  p.stock + item.quantity

/-- The moving-average formula (line 1166): `newAvgCost = newStock > 0 ?
((oldStock * oldAvgCost) + (item.quantity * item.cost)) / newStock :
item.cost`. -/
def newAvgCostFor (p : Product) (item : LineItem) : Rat :=
  if 0 < newStockFor p item then
    ((p.stock : Rat) * p.averageCost + (item.quantity : Rat) * item.cost) /
      ((newStockFor p item : Int) : Rat)
  else item.cost

/-- The product update staged by a receipt (line 1168):
`{ stock: newStock, averageCost: newAvgCost, cost: item.cost }`. -/
def receiveProductUpdate (p : Product) (item : LineItem) : Product :=
  { stock := newStockFor p item
    averageCost := newAvgCostFor p item
    cost := item.cost }

/-- The body of one iteration of the receive loop after the product document
was found (lines 1162-1182): stage the product update, append the
inventory-log entry, and append a cost-log entry exactly when the old and
new average costs differ in their `toFixed(5)` renderings. -/
def applyReceiptToState (onum : String) (s : DBState) (item : LineItem)
    (productData : Product) : DBState :=
  let s1 := { s with products := setDoc s.products item.productId (receiveProductUpdate productData item) }
  let s2 := { s1 with invLogs := s1.invLogs ++ [{ productId := item.productId, productName := item.name, entryType := "in", change := item.quantity, newStock := newStockFor productData item, relatedDoc := onum }] }
  if toFixed5 productData.averageCost ≠
      toFixed5 (newAvgCostFor productData item) then
    { s2 with costLogs := s2.costLogs ++ [{ productId := item.productId, productName := item.name, entryType := "in", relatedDoc := onum, oldAvgCost := productData.averageCost, newAvgCost := newAvgCostFor productData item }] }
  else s2

/-- One iteration of the receive loop (lines 1157-1183): throw if the
product document does not exist, otherwise apply the receipt. -/
def receiveItem (onum : String) (s : DBState) (item : LineItem) :
    Except ReceiveError DBState :=
  match getDoc s.products item.productId with
  | none => .error .productNotFound
  | some productData => .ok (applyReceiptToState onum s item productData)

/-- The `for (const item of order.items)` loop of `handleReceiveItems`,
processing line items in list order; the first throw aborts the whole
transaction. -/
def receiveLoop (onum : String) : DBState → List LineItem →
    Except ReceiveError DBState
  | s, [] => .ok s
  | s, item :: rest =>
    match receiveItem onum s item with
    | .error e => .error e
    | .ok s1 => receiveLoop onum s1 rest

/-- `handleReceiveItems` (lines 1150-1188): the goods-receipt transaction.
The guard at line 1155 throws when the purchase-order document is missing or
its stored status is `Received`; on success the order's status is set to
`Received` (line 1184).  The loop iterates over the `items` of the `order`
argument (the caller's snapshot), as the source does. -/
def handleReceiveItems (s : DBState) (order : Order) :
    Except ReceiveError DBState :=
  match getDoc s.purchaseOrders order.id with
  | none => .error .orderNotReceivable
  | some orderDoc =>
    if orderDoc.status = "Received" then .error .orderNotReceivable
    else
      match receiveLoop order.orderNumber s order.items with
      | .error e => .error e
      | .ok s1 =>
        .ok { s1 with purchaseOrders := setDoc s1.purchaseOrders order.id { orderDoc with status := "Received" } }

/-- The product update staged by a shipment (line 1516): only `stock` is
written; `averageCost` and `cost` are untouched. -/
def shipProductUpdate (p : Product) (item : LineItem) : Product :=
  { p with stock := p.stock - item.quantity }

/-- The state effect of shipping one line item after its checks passed
(lines 1514-1528): decrement stock and append the out-entry to the
inventory log.  No cost-log entry is ever written by a shipment. -/
def applyShipmentToState (onum : String) (s : DBState) (item : LineItem)
    (productData : Product) : DBState :=
  { s with
    products := setDoc s.products item.productId (shipProductUpdate productData item)
    invLogs := s.invLogs ++ [{ productId := item.productId, productName := item.name, entryType := "out", change := -item.quantity, newStock := productData.stock - item.quantity, relatedDoc := onum }] }

/-- One iteration of the ship loop (lines 1509-1528): the single throw at
line 1512 fires when the product is missing or `stock < quantity`; otherwise
the stock decrement is staged and the line item, stamped with
`costAtSale = productData.averageCost` (line 1521), is pushed onto
`updatedItems`. -/
def shipItem (onum : String) (s : DBState) (acc : List LineItem)
    (item : LineItem) : Except ShipError (DBState × List LineItem) :=
  match getDoc s.products item.productId with
  | none => .error .insufficientStock
  | some productData =>
    if productData.stock < item.quantity then .error .insufficientStock
    else
      .ok (applyShipmentToState onum s item productData,
           acc ++ [{ item with costAtSale := some productData.averageCost }])

/-- The `for (const item of order.items)` loop of `handleShipOrder`,
carrying the accumulated `updatedItems` array. -/
def shipLoop (onum : String) : DBState → List LineItem → List LineItem →
    Except ShipError (DBState × List LineItem)
  | s, acc, [] => .ok (s, acc)
  | s, acc, item :: rest =>
    match shipItem onum s acc item with
    | .error e => .error e
    | .ok (s1, acc1) => shipLoop onum s1 acc1 rest

/-- `handleShipOrder` (lines 1500-1539): the shipment transaction.  Note
that, unlike `handleReceiveItems`, it contains no order-status guard of any
kind: the transaction never reads the sales order's stored status; the only
gating in the source is the UI button at line 1602, outside the transaction.
On success the order's status is set to `Completed` and its `items` replaced
by the `costAtSale`-stamped array (line 1532). -/
def handleShipOrder (s : DBState) (order : Order) :
    Except ShipError DBState :=
  match shipLoop order.orderNumber s [] order.items with
  | .error e => .error e
  | .ok (s1, updatedItems) =>
    match getDoc s1.salesOrders order.id with
    | none => .error .orderMissing
    | some orderDoc =>
      .ok { s1 with salesOrders := setDoc s1.salesOrders order.id { orderDoc with status := "Completed", items := updatedItems } }

/-- A freshly created product (`handleAdd`, line 799):
`averageCost: 0, cost: 0, stock: 0`. -/
def newProduct : Product :=
  { stock := 0, averageCost := 0, cost := 0 }

/-- The order-form submission filter (`handleSubmit`, line 1330):
`items.filter(item => item.productId && item.quantity > 0)` — only items
with a chosen product and a strictly positive quantity are saved into the
order. -/
def finalItems (items : List LineItem) : List LineItem :=
  items.filter (fun item => item.productId ≠ "" ∧ 0 < item.quantity)

/-- The default unit cost filled into a drafted order line when a product is
selected (`handleItemChange`, line 1312): `newItems[index].cost =
product.cost || 0`; the `|| 0` default is the identity here because the
modelled `cost` field is always a present number and `0 || 0` is `0`. -/
def orderFormItemCost (product : Product) : Rat :=
  product.cost

/-- The empty store: no documents of any collection. -/
def initState : DBState :=
  { products := [], purchaseOrders := [], salesOrders := [],
    invLogs := [], costLogs := [] }

/-- One externally triggered transition of the system, as implemented by the
source's handlers: product creation (`handleAdd`, line 799, with
`stock: 0, averageCost: 0, cost: 0`), purchase-order creation
(`handleAddOrder`, line 1145, status `Pending`, items passed through the
order form's `finalItems` filter), sales-order creation (`handleAddOrder`,
line 1100, status `Pending Approval`), order approval (`handleApproveOrder`,
line 1113, status set to `Pending Shipment`), and the two successful
movement transactions.  The movement steps take an arbitrary `order`
argument because the handlers receive the caller's snapshot of the order,
not the stored document. -/
inductive Step : DBState → DBState → Prop
  | addProduct (s : DBState) (pid : String)
      (h : getDoc s.products pid = none) :
      Step s { s with products := addDoc s.products pid newProduct }
  | addPurchaseOrder (s : DBState) (oid onum : String)
      (items : List LineItem) (h : getDoc s.purchaseOrders oid = none) :
      Step s { s with purchaseOrders := addDoc s.purchaseOrders oid { id := oid, orderNumber := onum, status := "Pending", items := finalItems items } }
  | addSalesOrder (s : DBState) (oid onum : String)
      (items : List LineItem) (h : getDoc s.salesOrders oid = none) :
      Step s { s with salesOrders := addDoc s.salesOrders oid { id := oid, orderNumber := onum, status := "Pending Approval", items := finalItems items } }
  | approveOrder (s : DBState) (oid : String) (od : Order)
      (h : getDoc s.salesOrders oid = some od) :
      Step s { s with salesOrders := setDoc s.salesOrders oid { od with status := "Pending Shipment" } }
  | receiveOrder (s s' : DBState) (order : Order)
      (h : handleReceiveItems s order = .ok s') : Step s s'
  | shipOrder (s s' : DBState) (order : Order)
      (h : handleShipOrder s order = .ok s') : Step s s'

/-- A committed state of the system: reachable from the empty store by the
handlers' transitions. -/
def Reachable (s : DBState) : Prop :=
  Relation.ReflTransGen Step initState s

/-- The sum of the `change` fields of a product's inventory-log entries. -/
def changeSum (pid : String) (logs : List InventoryLogEntry) : Int :=
  ((logs.filter fun e => e.productId = pid).map InventoryLogEntry.change).sum

theorem changeSum_append (pid : String)
    (l1 l2 : List InventoryLogEntry) :
    changeSum pid (l1 ++ l2) = changeSum pid l1 + changeSum pid l2 := by
  simp [changeSum]

theorem changeSum_singleton (pid : String) (e : InventoryLogEntry) :
    changeSum pid [e] = if e.productId = pid then e.change else 0 := by
  by_cases h : e.productId = pid <;> simp [changeSum, h]

/-- The stock-reconstruction invariant of the specification: for every
product, the sum of the `change` fields over its inventory-log entries
equals its current `stock`. -/
def LogsConsistent (s : DBState) : Prop :=
  ∀ pid p, getDoc s.products pid = some p → changeSum pid s.invLogs = p.stock

/-- Every inventory-log entry names an existing product (log entries are
only written by movements against a product that was just read). -/
def LogsOwned (s : DBState) : Prop :=
  ∀ e ∈ s.invLogs, (getDoc s.products e.productId).isSome = true

/-- Every stored purchase order has status `Pending` or `Received`: the
only two statuses the source ever assigns to a purchase order. -/
def PurchaseStatuses (s : DBState) : Prop :=
  ∀ oid od, getDoc s.purchaseOrders oid = some od →
    od.status = "Pending" ∨ od.status = "Received"

/-- The conjunction of the state invariants maintained by every transition. -/
def Inv (s : DBState) : Prop :=
  LogsConsistent s ∧ LogsOwned s ∧ PurchaseStatuses s

theorem applyReceiptToState_products (onum : String) (s : DBState)
    (item : LineItem) (p : Product) :
    (applyReceiptToState onum s item p).products =
      setDoc s.products item.productId (receiveProductUpdate p item) := by
  simp only [applyReceiptToState]
  split <;> rfl

theorem applyReceiptToState_invLogs (onum : String) (s : DBState)
    (item : LineItem) (p : Product) :
    (applyReceiptToState onum s item p).invLogs =
      s.invLogs ++ [{ productId := item.productId, productName := item.name, entryType := "in", change := item.quantity, newStock := newStockFor p item, relatedDoc := onum }] := by
  simp only [applyReceiptToState]
  split <;> rfl

theorem applyReceiptToState_purchaseOrders (onum : String) (s : DBState)
    (item : LineItem) (p : Product) :
    (applyReceiptToState onum s item p).purchaseOrders =
      s.purchaseOrders := by
  simp only [applyReceiptToState]
  split <;> rfl

theorem applyReceiptToState_salesOrders (onum : String) (s : DBState)
    (item : LineItem) (p : Product) :
    (applyReceiptToState onum s item p).salesOrders = s.salesOrders := by
  simp only [applyReceiptToState]
  split <;> rfl

theorem applyReceiptToState_costLogs (onum : String) (s : DBState)
    (item : LineItem) (p : Product) :
    (applyReceiptToState onum s item p).costLogs =
      if toFixed5 p.averageCost ≠ toFixed5 (newAvgCostFor p item) then
        s.costLogs ++ [{ productId := item.productId, productName := item.name, entryType := "in", relatedDoc := onum, oldAvgCost := p.averageCost, newAvgCost := newAvgCostFor p item }]
      else s.costLogs := by
  simp only [applyReceiptToState]
  split <;> simp_all

theorem receiveItem_ok_iff (onum : String) (s : DBState) (item : LineItem)
    (s' : DBState) :
    receiveItem onum s item = .ok s' ↔
      ∃ p, getDoc s.products item.productId = some p ∧
        s' = applyReceiptToState onum s item p := by
  cases h : getDoc s.products item.productId <;>
    simp [receiveItem, h, eq_comm]

theorem shipItem_ok_iff (onum : String) (s : DBState)
    (acc : List LineItem) (item : LineItem)
    (r : DBState × List LineItem) :
    shipItem onum s acc item = .ok r ↔
      ∃ p, getDoc s.products item.productId = some p ∧
        ¬ p.stock < item.quantity ∧
        r = (applyShipmentToState onum s item p,
             acc ++ [{ item with costAtSale := some p.averageCost }]) := by
  cases h : getDoc s.products item.productId with
  | none => simp [shipItem, h]
  | some p =>
    by_cases hq : p.stock < item.quantity
    · simp [shipItem, h, hq, eq_comm]
    · simp [shipItem, h, hq, eq_comm]
      exact fun _ => le_of_not_lt hq

theorem shipItem_error_eq (onum : String) (s : DBState)
    (acc : List LineItem) (item : LineItem) (e : ShipError)
    (h : shipItem onum s acc item = .error e) :
    e = .insufficientStock := by
  cases hg : getDoc s.products item.productId with
  | none => simp [shipItem, hg] at h; exact h.symm
  | some p =>
    by_cases hq : p.stock < item.quantity <;>
      simp [shipItem, hg, hq] at h
    exact h.symm

theorem getDoc_setDoc_none {A : Type} (m : List (String × A))
    (k : String) (v : A) (h : getDoc m k = none) :
    getDoc (setDoc m k v) k = none := by
  induction m with
  | nil => simp [getDoc, setDoc]
  | cons kv rest ih =>
    by_cases hk : kv.1 = k
    · simp [getDoc, hk] at h
    · simp only [getDoc, hk, if_false, if_neg hk] at h
      simp only [setDoc, hk, if_false, if_neg hk, getDoc]
      exact ih h

theorem getDoc_setDoc_elim {A : Type} {m : List (String × A)}
    {k k' : String} {v w : A} (h : getDoc (setDoc m k v) k' = some w) :
    (k' = k ∧ w = v) ∨ (k' ≠ k ∧ getDoc m k' = some w) := by
  by_cases hk : k' = k
  · subst hk
    cases hg : getDoc m k' with
    | none => rw [getDoc_setDoc_none m k' v hg] at h; cases h
    | some u =>
      rw [getDoc_setDoc_self m k' v u hg] at h
      exact Or.inl ⟨rfl, (Option.some.inj h).symm⟩
  · rw [getDoc_setDoc_ne m k k' v hk] at h
    exact Or.inr ⟨hk, h⟩

theorem getDoc_addDoc_elim {A : Type} {m : List (String × A)}
    {k k' : String} {v w : A} (h : getDoc (addDoc m k v) k' = some w) :
    getDoc m k' = some w ∨ (k' = k ∧ getDoc m k = none ∧ w = v) := by
  induction m with
  | nil =>
    simp only [addDoc, List.nil_append, getDoc] at h
    by_cases hk : k = k'
    · rw [if_pos hk] at h
      exact Or.inr ⟨hk.symm, rfl, (Option.some.inj h).symm⟩
    · rw [if_neg hk] at h; cases h
  | cons kv rest ih =>
    simp only [addDoc, List.cons_append, getDoc] at h ⊢
    by_cases hk : kv.1 = k'
    · rw [if_pos hk] at h ⊢
      exact Or.inl h
    · rw [if_neg hk] at h ⊢
      rcases ih h with h1 | ⟨h1, h2, h3⟩
      · exact Or.inl h1
      · subst h1
        exact Or.inr ⟨rfl, by rw [if_neg hk]; exact h2, h3⟩

theorem changeSum_of_not_mem (pid : String)
    (logs : List InventoryLogEntry)
    (h : ∀ e ∈ logs, ¬ e.productId = pid) : changeSum pid logs = 0 := by
  have : logs.filter (fun e => e.productId = pid) = [] := by
    rw [List.filter_eq_nil_iff]
    intro e he
    simpa using h e he
  simp [changeSum, this]

/-- The stock-reconstruction half of the invariant, as preserved by the
per-item loops. -/
def LogsInv (s : DBState) : Prop :=
  LogsConsistent s ∧ LogsOwned s

theorem receiveItem_logsInv (onum : String) (s : DBState) (item : LineItem)
    (s1 : DBState) (h : receiveItem onum s item = .ok s1)
    (hinv : LogsInv s) : LogsInv s1 := by
  obtain ⟨p, hp, rfl⟩ := (receiveItem_ok_iff onum s item s1).mp h
  obtain ⟨hc, ho⟩ := hinv
  constructor
  · intro pid q hq
    rw [applyReceiptToState_products] at hq
    rw [applyReceiptToState_invLogs, changeSum_append, changeSum_singleton]
    rcases getDoc_setDoc_elim hq with ⟨hid, hqv⟩ | ⟨hid, hqs⟩
    · subst hid hqv
      rw [if_pos rfl, hc item.productId p hp]
      simp [receiveProductUpdate, newStockFor]
    · rw [if_neg (fun hh => hid hh.symm), hc pid q hqs, add_zero]
  · intro e he
    rw [applyReceiptToState_invLogs] at he
    rw [applyReceiptToState_products]
    rcases List.mem_append.mp he with h1 | h2
    · rw [getDoc_setDoc_isSome]; exact ho e h1
    · have : e.productId = item.productId := by
        simp only [List.mem_singleton] at h2; rw [h2]
      rw [this, getDoc_setDoc_self _ _ _ p hp]
      rfl

theorem receiveLoop_logsInv (onum : String) :
    ∀ (items : List LineItem) (s s' : DBState),
    receiveLoop onum s items = .ok s' → LogsInv s → LogsInv s' := by
  intro items
  induction items with
  | nil =>
    intro s s' h hinv
    simp only [receiveLoop] at h
    cases h; exact hinv
  | cons item rest ih =>
    intro s s' h hinv
    simp only [receiveLoop] at h
    cases h1 : receiveItem onum s item with
    | error e => rw [h1] at h; cases h
    | ok s1 =>
      rw [h1] at h
      exact ih s1 s' h (receiveItem_logsInv onum s item s1 h1 hinv)

theorem receiveLoop_ok_orders (onum : String) :
    ∀ (items : List LineItem) (s s' : DBState),
    receiveLoop onum s items = .ok s' →
    s'.purchaseOrders = s.purchaseOrders ∧ s'.salesOrders = s.salesOrders := by
  intro items
  induction items with
  | nil =>
    intro s s' h
    simp only [receiveLoop] at h
    cases h; exact ⟨rfl, rfl⟩
  | cons item rest ih =>
    intro s s' h
    simp only [receiveLoop] at h
    cases h1 : receiveItem onum s item with
    | error e => rw [h1] at h; cases h
    | ok s1 =>
      rw [h1] at h
      obtain ⟨p, hp, hs1⟩ := (receiveItem_ok_iff onum s item s1).mp h1
      obtain ⟨h2, h3⟩ := ih s1 s' h
      subst hs1
      rw [h2, h3, applyReceiptToState_purchaseOrders,
        applyReceiptToState_salesOrders]
      exact ⟨rfl, rfl⟩

theorem handleReceiveItems_ok_elim (s : DBState) (order : Order)
    (s' : DBState) (h : handleReceiveItems s order = .ok s') :
    ∃ od s1, getDoc s.purchaseOrders order.id = some od ∧
      ¬ od.status = "Received" ∧
      receiveLoop order.orderNumber s order.items = .ok s1 ∧
      s' = { s1 with purchaseOrders := setDoc s1.purchaseOrders order.id { od with status := "Received" } } := by
  unfold handleReceiveItems at h
  split at h
  · cases h
  rename_i od hg
  split at h
  · cases h
  rename_i hst
  split at h
  · cases h
  rename_i s1 hl
  refine ⟨od, s1, hg, hst, hl, ?_⟩
  injection h with h
  exact h.symm

/-- The total quantity of a product shipped by an order's line items. -/
def shippedQty (pid : String) (items : List LineItem) : Int :=
  ((items.filter fun it => it.productId = pid).map LineItem.quantity).sum

theorem shippedQty_cons (pid : String) (it : LineItem)
    (rest : List LineItem) :
    shippedQty pid (it :: rest) =
      (if it.productId = pid then it.quantity else 0) +
        shippedQty pid rest := by
  by_cases h : it.productId = pid <;>
    simp [shippedQty, List.filter_cons, h]

/-- A line item as stamped by the shipment loop: `costAtSale` set to the
average cost its product carries in state `s`. -/
def stampWith (s : DBState) (item : LineItem) : LineItem :=
  { item with costAtSale := (getDoc s.products item.productId).map Product.averageCost }

theorem applyShipmentToState_products (onum : String) (s : DBState)
    (item : LineItem) (p : Product) :
    (applyShipmentToState onum s item p).products =
      setDoc s.products item.productId (shipProductUpdate p item) := rfl

theorem applyShipmentToState_invLogs (onum : String) (s : DBState)
    (item : LineItem) (p : Product) :
    (applyShipmentToState onum s item p).invLogs =
      s.invLogs ++ [{ productId := item.productId, productName := item.name, entryType := "out", change := -item.quantity, newStock := p.stock - item.quantity, relatedDoc := onum }] := rfl

theorem shipItem_logsInv (onum : String) (s : DBState)
    (acc : List LineItem) (item : LineItem) (r : DBState × List LineItem)
    (h : shipItem onum s acc item = .ok r) (hinv : LogsInv s) :
    LogsInv r.1 := by
  obtain ⟨p, hp, hq, rfl⟩ := (shipItem_ok_iff onum s acc item r).mp h
  obtain ⟨hc, ho⟩ := hinv
  constructor
  · intro pid q hgq
    rw [applyShipmentToState_products] at hgq
    rw [applyShipmentToState_invLogs, changeSum_append, changeSum_singleton]
    rcases getDoc_setDoc_elim hgq with ⟨hid, hqv⟩ | ⟨hid, hqs⟩
    · subst hid hqv
      rw [if_pos rfl, hc item.productId p hp]
      simp [shipProductUpdate]
      omega
    · rw [if_neg (fun hh => hid hh.symm), hc pid q hqs, add_zero]
  · intro e he
    rw [applyShipmentToState_invLogs] at he
    rw [applyShipmentToState_products]
    rcases List.mem_append.mp he with h1 | h2
    · rw [getDoc_setDoc_isSome]; exact ho e h1
    · have : e.productId = item.productId := by
        simp only [List.mem_singleton] at h2; rw [h2]
      rw [this, getDoc_setDoc_self _ _ _ p hp]
      rfl

theorem shipItem_avg_view (onum : String) (s : DBState)
    (acc : List LineItem) (item : LineItem) (r : DBState × List LineItem)
    (h : shipItem onum s acc item = .ok r) (pid : String) :
    (getDoc r.1.products pid).map Product.averageCost =
      (getDoc s.products pid).map Product.averageCost := by
  obtain ⟨p, hp, hq, rfl⟩ := (shipItem_ok_iff onum s acc item r).mp h
  rw [applyShipmentToState_products]
  by_cases hid : pid = item.productId
  · subst hid
    rw [getDoc_setDoc_self _ _ _ p hp, hp]
    rfl
  · rw [getDoc_setDoc_ne _ _ _ _ hid]

theorem shipLoop_logsInv (onum : String) :
    ∀ (items : List LineItem) (s : DBState) (acc : List LineItem)
      (s' : DBState) (acc' : List LineItem),
    shipLoop onum s acc items = .ok (s', acc') → LogsInv s → LogsInv s' := by
  intro items
  induction items with
  | nil =>
    intro s acc s' acc' h hinv
    simp only [shipLoop] at h
    cases h; exact hinv
  | cons item rest ih =>
    intro s acc s' acc' h hinv
    simp only [shipLoop] at h
    cases h1 : shipItem onum s acc item with
    | error e => rw [h1] at h; cases h
    | ok r =>
      rw [h1] at h
      exact ih r.1 r.2 s' acc' h (shipItem_logsInv onum s acc item r h1 hinv)

theorem shipLoop_ok_frame (onum : String) :
    ∀ (items : List LineItem) (s : DBState) (acc : List LineItem)
      (s' : DBState) (acc' : List LineItem),
    shipLoop onum s acc items = .ok (s', acc') →
    s'.purchaseOrders = s.purchaseOrders ∧
      s'.salesOrders = s.salesOrders ∧ s'.costLogs = s.costLogs := by
  intro items
  induction items with
  | nil =>
    intro s acc s' acc' h
    simp only [shipLoop] at h
    cases h; exact ⟨rfl, rfl, rfl⟩
  | cons item rest ih =>
    intro s acc s' acc' h
    simp only [shipLoop] at h
    cases h1 : shipItem onum s acc item with
    | error e => rw [h1] at h; cases h
    | ok r =>
      rw [h1] at h
      obtain ⟨p, hp, hq, hr⟩ := (shipItem_ok_iff onum s acc item r).mp h1
      obtain ⟨f1, f2, f3⟩ := ih r.1 r.2 s' acc' h
      rw [hr] at f1 f2 f3
      exact ⟨f1, f2, f3⟩

theorem shipLoop_ok_product (onum : String) :
    ∀ (items : List LineItem) (s : DBState) (acc : List LineItem)
      (s' : DBState) (acc' : List LineItem),
    shipLoop onum s acc items = .ok (s', acc') →
    ∀ pid p, getDoc s.products pid = some p →
    getDoc s'.products pid =
      some { p with stock := p.stock - shippedQty pid items } := by
  intro items
  induction items with
  | nil =>
    intro s acc s' acc' h pid p hp
    simp only [shipLoop] at h
    cases h
    simp [shippedQty, hp]
  | cons item rest ih =>
    intro s acc s' acc' h pid p hp
    simp only [shipLoop] at h
    cases h1 : shipItem onum s acc item with
    | error e => rw [h1] at h; cases h
    | ok r =>
      rw [h1] at h
      obtain ⟨p0, hp0, hq0, hr⟩ := (shipItem_ok_iff onum s acc item r).mp h1
      rw [shippedQty_cons]
      by_cases hid : pid = item.productId
      · subst hid
        obtain rfl : p0 = p := by
          rw [hp0] at hp
          exact Option.some.inj hp
        have hg1 : getDoc r.1.products item.productId =
            some (shipProductUpdate p0 item) := by
          rw [hr, applyShipmentToState_products]
          exact getDoc_setDoc_self _ _ _ p0 hp0
        have hres := ih r.1 r.2 s' acc' h item.productId _ hg1
        rw [hres, if_pos rfl]
        have harith : p0.stock - item.quantity -
            shippedQty item.productId rest =
            p0.stock - (item.quantity + shippedQty item.productId rest) := by
          omega
        simp [shipProductUpdate, harith]
      · have hg1 : getDoc r.1.products pid = some p := by
          rw [hr, applyShipmentToState_products,
            getDoc_setDoc_ne _ _ _ _ hid]
          exact hp
        have := ih r.1 r.2 s' acc' h pid p hg1
        rw [this, if_neg (fun hh => hid hh.symm), zero_add]

theorem shipLoop_ok_items (onum : String) :
    ∀ (items : List LineItem) (s : DBState) (acc : List LineItem)
      (s' : DBState) (acc' : List LineItem),
    shipLoop onum s acc items = .ok (s', acc') →
    acc' = acc ++ items.map (stampWith s) := by
  intro items
  induction items with
  | nil =>
    intro s acc s' acc' h
    simp only [shipLoop] at h
    cases h; simp
  | cons item rest ih =>
    intro s acc s' acc' h
    simp only [shipLoop] at h
    cases h1 : shipItem onum s acc item with
    | error e => rw [h1] at h; cases h
    | ok r =>
      rw [h1] at h
      obtain ⟨p, hp, hq, hr⟩ := (shipItem_ok_iff onum s acc item r).mp h1
      have hstamp : stampWith s item =
          { item with costAtSale := some p.averageCost } := by
        simp [stampWith, hp]
      have hmap : rest.map (stampWith r.1) = rest.map (stampWith s) := by
        apply List.map_congr_left
        intro it _
        simp only [stampWith, shipItem_avg_view onum s acc item r h1]
      have := ih r.1 r.2 s' acc' h
      rw [hmap] at this
      rw [this, hr]
      simp [hstamp]

theorem shipLoop_insufficient (onum : String) :
    ∀ (items : List LineItem) (s : DBState) (acc : List LineItem)
      (item : LineItem) (p : Product), item ∈ items →
    getDoc s.products item.productId = some p →
    p.stock < item.quantity →
    (∀ it ∈ items, 0 ≤ it.quantity) →
    shipLoop onum s acc items = .error .insufficientStock := by
  intro items
  induction items with
  | nil =>
    intro s acc item p hmem
    cases hmem
  | cons it0 rest ih =>
    intro s acc item p hmem hp hlt hpos
    simp only [shipLoop]
    rcases List.mem_cons.mp hmem with heq | hrest
    · subst heq
      have : shipItem onum s acc item = .error .insufficientStock := by
        simp [shipItem, hp, hlt]
      rw [this]
    · cases h1 : shipItem onum s acc it0 with
      | error e =>
        rw [shipItem_error_eq onum s acc it0 e h1]
      | ok r =>
        obtain ⟨rs, racc⟩ := r
        obtain ⟨p0, hp0, hq0, hr⟩ :=
          (shipItem_ok_iff onum s acc it0 (rs, racc)).mp h1
        injection hr with hrs hracc
        subst hrs
        subst hracc
        show shipLoop onum (applyShipmentToState onum s it0 p0) _ rest =
          .error .insufficientStock
        have hpos0 : 0 ≤ it0.quantity := hpos it0 (List.mem_cons_self it0 rest)
        have hposr : ∀ it ∈ rest, 0 ≤ it.quantity :=
          fun it hit => hpos it (List.mem_cons_of_mem it0 hit)
        by_cases hid : item.productId = it0.productId
        · obtain rfl : p0 = p := by
            rw [hid] at hp
            rw [hp0] at hp
            exact Option.some.inj hp
          have hg1 : getDoc (applyShipmentToState onum s it0 p0).products
              item.productId = some (shipProductUpdate p0 it0) := by
            rw [applyShipmentToState_products, hid]
            exact getDoc_setDoc_self _ _ _ p0 hp0
          refine ih _ _ item _ hrest hg1 ?_ hposr
          simp only [shipProductUpdate]
          omega
        · have hg1 : getDoc (applyShipmentToState onum s it0 p0).products
              item.productId = some p := by
            rw [applyShipmentToState_products,
              getDoc_setDoc_ne _ _ _ _ hid]
            exact hp
          exact ih _ _ item p hrest hg1 hlt hposr

theorem handleShipOrder_ok_elim (s : DBState) (order : Order)
    (s' : DBState) (h : handleShipOrder s order = .ok s') :
    ∃ s1 updatedItems od,
      shipLoop order.orderNumber s [] order.items = .ok (s1, updatedItems) ∧
      getDoc s1.salesOrders order.id = some od ∧
      s' = { s1 with salesOrders := setDoc s1.salesOrders order.id { od with status := "Completed", items := updatedItems } } := by
  unfold handleShipOrder at h
  split at h
  · cases h
  rename_i s1 updatedItems hl
  split at h
  · cases h
  rename_i od hg
  refine ⟨s1, updatedItems, od, hl, hg, ?_⟩
  injection h with h
  exact h.symm

theorem step_inv (s s' : DBState) (hst : Step s s') (hinv : Inv s) :
    Inv s' := by
  obtain ⟨hc, ho, hps⟩ := hinv
  cases hst with
  | addProduct pid h =>
    refine ⟨?_, ?_, hps⟩
    · intro pid' p' hp'
      rcases getDoc_addDoc_elim hp' with h1 | ⟨h1, h2, h3⟩
      · exact hc pid' p' h1
      · subst h1
        subst h3
        have hnm : ∀ e ∈ s.invLogs, ¬ e.productId = pid' := by
          intro e he heq
          have hsome := ho e he
          rw [heq, h] at hsome
          cases hsome
        rw [changeSum_of_not_mem pid' s.invLogs hnm]
        rfl
    · intro e he
      have hsome := ho e he
      obtain ⟨w, hw⟩ := Option.isSome_iff_exists.mp hsome
      have := getDoc_addDoc_of_some s.products pid e.productId newProduct w hw
      rw [this]
      rfl
  | addPurchaseOrder oid onum items h =>
    refine ⟨hc, ho, ?_⟩
    intro oid' od' ho'
    rcases getDoc_addDoc_elim ho' with h1 | ⟨h1, h2, h3⟩
    · exact hps oid' od' h1
    · subst h3
      exact Or.inl rfl
  | addSalesOrder oid onum items h =>
    exact ⟨hc, ho, hps⟩
  | approveOrder oid od h =>
    exact ⟨hc, ho, hps⟩
  | receiveOrder s2 order h =>
    obtain ⟨od, s1, hg, hstt, hl, rfl⟩ := handleReceiveItems_ok_elim s order s' h
    have hli := receiveLoop_logsInv order.orderNumber order.items s s1 hl ⟨hc, ho⟩
    refine ⟨hli.1, hli.2, ?_⟩
    intro oid' od' ho'
    have ho2 : getDoc (setDoc s1.purchaseOrders order.id { od with status := "Received" }) oid' = some od' := ho'
    rcases getDoc_setDoc_elim ho2 with ⟨h1, h2⟩ | ⟨h1, h2⟩
    · subst h2
      exact Or.inr rfl
    · obtain ⟨hpo, _⟩ := receiveLoop_ok_orders order.orderNumber order.items s s1 hl
      rw [hpo] at h2
      exact hps oid' od' h2
  | shipOrder s2 order h =>
    obtain ⟨s1, updatedItems, od, hl, hg, rfl⟩ := handleShipOrder_ok_elim s order s' h
    have hli := shipLoop_logsInv order.orderNumber order.items s [] s1 updatedItems hl ⟨hc, ho⟩
    obtain ⟨hpo, hso, hcl⟩ := shipLoop_ok_frame order.orderNumber order.items s [] s1 updatedItems hl
    refine ⟨hli.1, hli.2, ?_⟩
    intro oid' od' ho'
    have ho2 : getDoc s1.purchaseOrders oid' = some od' := ho'
    rw [hpo] at ho2
    exact hps oid' od' ho2

theorem reachable_inv (s : DBState) (h : Reachable s) : Inv s := by
  unfold Reachable at h
  induction h with
  | refl =>
    refine ⟨?_, ?_, ?_⟩
    · intro pid p hp
      cases hp
    · intro e he
      cases he
    · intro oid od ho
      cases ho
  | tail _ hstep ih =>
    exact step_inv _ _ hstep ih

theorem receiveItem_products_isSome (onum : String) (s : DBState)
    (item : LineItem) (s1 : DBState)
    (h : receiveItem onum s item = .ok s1) (pid : String) :
    (getDoc s1.products pid).isSome = (getDoc s.products pid).isSome := by
  obtain ⟨p, hp, rfl⟩ := (receiveItem_ok_iff onum s item s1).mp h
  rw [applyReceiptToState_products, getDoc_setDoc_isSome]

theorem receiveLoop_total (onum : String) :
    ∀ (items : List LineItem) (s : DBState),
    (∀ it ∈ items, (getDoc s.products it.productId).isSome = true) →
    ∃ s', receiveLoop onum s items = .ok s' := by
  intro items
  induction items with
  | nil =>
    intro s _
    exact ⟨s, rfl⟩
  | cons item rest ih =>
    intro s hall
    have hhead := hall item (List.mem_cons_self item rest)
    obtain ⟨p, hp⟩ := Option.isSome_iff_exists.mp hhead
    have h1 : receiveItem onum s item = .ok (applyReceiptToState onum s item p) := by
      simp [receiveItem, hp]
    have hrest : ∀ it ∈ rest,
        (getDoc (applyReceiptToState onum s item p).products it.productId).isSome = true := by
      intro it hit
      rw [receiveItem_products_isSome onum s item _ h1]
      exact hall it (List.mem_cons_of_mem item hit)
    obtain ⟨s', hs'⟩ := ih (applyReceiptToState onum s item p) hrest
    refine ⟨s', ?_⟩
    simp only [receiveLoop, h1]
    exact hs'

/-- The last line item of an order that references a given product: the
receive loop writes `cost: item.cost` for every matching item in list
order, so the last one wins. -/
def lastItemFor (pid : String) : List LineItem → Option LineItem
  | [] => none
  | it :: rest =>
    match lastItemFor pid rest with
    | some found => some found
    | none => if it.productId = pid then some it else none

theorem receiveLoop_cost (onum : String) :
    ∀ (items : List LineItem) (s s' : DBState),
    receiveLoop onum s items = .ok s' →
    ∀ pid p, getDoc s.products pid = some p →
    ∃ p', getDoc s'.products pid = some p' ∧
      p'.cost = (match lastItemFor pid items with
        | some it => it.cost
        | none => p.cost) := by
  intro items
  induction items with
  | nil =>
    intro s s' h pid p hp
    simp only [receiveLoop] at h
    cases h
    exact ⟨p, hp, rfl⟩
  | cons item rest ih =>
    intro s s' h pid p hp
    simp only [receiveLoop] at h
    cases h1 : receiveItem onum s item with
    | error e => rw [h1] at h; cases h
    | ok s1 =>
      rw [h1] at h
      obtain ⟨p0, hp0, hs1⟩ := (receiveItem_ok_iff onum s item s1).mp h1
      by_cases hid : pid = item.productId
      · subst hid
        obtain rfl : p0 = p := by
          rw [hp0] at hp
          exact Option.some.inj hp
        have hg1 : getDoc s1.products item.productId =
            some (receiveProductUpdate p0 item) := by
          rw [hs1, applyReceiptToState_products]
          exact getDoc_setDoc_self _ _ _ p0 hp0
        obtain ⟨p', hgp', hcost⟩ := ih s1 s' h item.productId _ hg1
        refine ⟨p', hgp', ?_⟩
        rw [hcost]
        simp only [lastItemFor]
        cases lastItemFor item.productId rest with
        | some found => rfl
        | none => simp [receiveProductUpdate]
      · have hg1 : getDoc s1.products pid = some p := by
          rw [hs1, applyReceiptToState_products,
            getDoc_setDoc_ne _ _ _ _ hid]
          exact hp
        obtain ⟨p', hgp', hcost⟩ := ih s1 s' h pid p hg1
        refine ⟨p', hgp', ?_⟩
        rw [hcost]
        simp only [lastItemFor]
        cases lastItemFor pid rest with
        | some found => rfl
        | none =>
          rw [if_neg (fun hh : item.productId = pid => hid hh.symm)]

/-- The total quantity over a list of line items. -/
def totalQty (items : List LineItem) : Int :=
  (items.map LineItem.quantity).sum

/-- The total cost of the units over a list of line items:
the sum of `quantity * cost`. -/
def totalQtyCost (items : List LineItem) : Rat :=
  (items.map fun it => (it.quantity : Rat) * it.cost).sum

theorem receiveLoop_weighted (onum pid : String) :
    ∀ (items : List LineItem) (s : DBState) (p : Product),
    getDoc s.products pid = some p → 0 ≤ p.stock →
    (∀ it ∈ items, it.productId = pid ∧ 0 < it.quantity) →
    ∃ s' p', receiveLoop onum s items = .ok s' ∧
      getDoc s'.products pid = some p' ∧
      p'.stock = p.stock + totalQty items ∧
      (p'.stock : Rat) * p'.averageCost =
        (p.stock : Rat) * p.averageCost + totalQtyCost items := by
  intro items
  induction items with
  | nil =>
    intro s p hp _ _
    exact ⟨s, p, rfl, hp, by simp [totalQty], by simp [totalQtyCost]⟩
  | cons item rest ih =>
    intro s p hp hnn hall
    obtain ⟨hpid, hq⟩ := hall item (List.mem_cons_self item rest)
    have hpitem : getDoc s.products item.productId = some p := by
      rw [hpid]; exact hp
    have h1 : receiveItem onum s item = .ok (applyReceiptToState onum s item p) := by
      simp [receiveItem, hpitem]
    have hpos : 0 < newStockFor p item := by
      simp only [newStockFor]; omega
    set p1 : Product := receiveProductUpdate p item with hp1def
    have hg1 : getDoc (applyReceiptToState onum s item p).products pid = some p1 := by
      rw [applyReceiptToState_products, ← hpid]
      rw [hpid] at hpitem ⊢
      exact getDoc_setDoc_self _ _ _ p hpitem
    have hp1stock : p1.stock = p.stock + item.quantity := rfl
    have hp1avg : (p1.stock : Rat) * p1.averageCost =
        (p.stock : Rat) * p.averageCost + (item.quantity : Rat) * item.cost := by
      have havg : p1.averageCost =
          ((p.stock : Rat) * p.averageCost + (item.quantity : Rat) * item.cost) /
            ((newStockFor p item : Int) : Rat) := by
        simp only [hp1def, receiveProductUpdate, newAvgCostFor, if_pos hpos]
      have hne : ((newStockFor p item : Int) : Rat) ≠ 0 := by
        simp only [ne_eq, Int.cast_eq_zero]
        omega
      rw [havg, hp1stock]
      show ((newStockFor p item : Int) : Rat) * _ = _
      rw [mul_div_cancel₀ _ hne]
    have hrest : ∀ it ∈ rest, it.productId = pid ∧ 0 < it.quantity :=
      fun it hit => hall it (List.mem_cons_of_mem item hit)
    obtain ⟨s', p', hloop, hgp', hstock, havgsum⟩ :=
      ih (applyReceiptToState onum s item p) p1 hg1 (by rw [hp1stock]; omega) hrest
    refine ⟨s', p', ?_, hgp', ?_, ?_⟩
    · simp only [receiveLoop, h1]
      exact hloop
    · rw [hstock, hp1stock]
      simp [totalQty]
      ring
    · rw [havgsum, hp1avg]
      simp [totalQtyCost]
      ring

theorem handleReceiveItems_ok_of_loop (s : DBState) (order : Order)
    (od : Order) (s1 : DBState)
    (hg : getDoc s.purchaseOrders order.id = some od)
    (hst : ¬ od.status = "Received")
    (hl : receiveLoop order.orderNumber s order.items = .ok s1) :
    handleReceiveItems s order =
      .ok { s1 with purchaseOrders := setDoc s1.purchaseOrders order.id { od with status := "Received" } } := by
  simp only [handleReceiveItems, hg, hl, if_neg hst]

/-- Line item of the specification's scenario: receive 10 units of product
`p1` at unit cost 100. -/
def itemR1 : LineItem :=
  { productId := "p1", name := "W", quantity := 10, cost := 100, price := 0,
    costAtSale := none }

/-- Line item of the specification's scenario: receive 5 units of product
`p1` at unit cost 130. -/
def itemR2 : LineItem :=
  { productId := "p1", name := "W", quantity := 5, cost := 130, price := 0,
    costAtSale := none }

/-- Line item of the specification's scenario: ship 12 units of `p1`. -/
def itemS12 : LineItem :=
  { productId := "p1", name := "W", quantity := 12, cost := 0, price := 200,
    costAtSale := none }

/-- Purchase order of the scenario's first receipt. -/
def poR1 : Order :=
  { id := "o1", orderNumber := "PO-1", status := "Pending", items := [itemR1] }

/-- Purchase order of the scenario's second receipt. -/
def poR2 : Order :=
  { id := "o2", orderNumber := "PO-2", status := "Pending", items := [itemR2] }

/-- Sales order of the scenario's shipment. -/
def soS : Order :=
  { id := "s1", orderNumber := "SO-1", status := "Pending Shipment",
    items := [itemS12] }

/-- The scenario's starting state: product `p1` freshly created
(`stock = 0`, `averageCost = 0`), the two purchase orders and the sales
order stored. -/
def scenState0 : DBState :=
  { products := [("p1", newProduct)],
    purchaseOrders := [("o1", poR1), ("o2", poR2)],
    salesOrders := [("s1", soS)],
    invLogs := [], costLogs := [] }

/-- The state after the scenario's first receipt (10 units at 100). -/
def scenState1 : DBState :=
  (handleReceiveItems scenState0 poR1).toOption.getD scenState0

/-- The state after the scenario's second receipt (5 units at 130). -/
def scenState2 : DBState :=
  (handleReceiveItems scenState1 poR2).toOption.getD scenState1

/-- The state after the scenario's shipment of 12 units. -/
def scenState3 : DBState :=
  (handleShipOrder scenState2 soS).toOption.getD scenState2

/-- C1: for every receipt of a line item applied to a product, the new stock
equals the old stock plus the line item's quantity, and the new average cost
equals `(stock * averageCost + quantity * cost) / newStock` when the new
stock is positive and the line-item cost otherwise; and, concretely, from
`stock = 0, averageCost = 0`, receiving 10 units at 100 then 5 units at 130
yields `stock = 15, averageCost = 110`, and then shipping 12 units yields
`stock = 3` with `averageCost` still 110 and the shipped line item stamped
`costAtSale = 110`. -/
theorem claim1_receipt_formula_and_scenario :
    (∀ (s : DBState) (order : Order) (item : LineItem) (od : Order)
        (p : Product),
      order.items = [item] →
      getDoc s.purchaseOrders order.id = some od →
      ¬ od.status = "Received" →
      getDoc s.products item.productId = some p →
      ∃ s' p', handleReceiveItems s order = .ok s' ∧
        getDoc s'.products item.productId = some p' ∧
        p'.stock = p.stock + item.quantity ∧
        p'.averageCost =
          (if 0 < p.stock + item.quantity then
            ((p.stock : Rat) * p.averageCost +
              (item.quantity : Rat) * item.cost) /
              ((p.stock + item.quantity : Int) : Rat)
          else item.cost)) ∧
    ((handleReceiveItems scenState0 poR1).isOk = true ∧
     getDoc scenState1.products "p1" =
       some { stock := 10, averageCost := 100, cost := 100 } ∧
     (handleReceiveItems scenState1 poR2).isOk = true ∧
     getDoc scenState2.products "p1" =
       some { stock := 15, averageCost := 110, cost := 130 } ∧
     (handleShipOrder scenState2 soS).isOk = true ∧
     getDoc scenState3.products "p1" =
       some { stock := 3, averageCost := 110, cost := 130 } ∧
     (getDoc scenState3.salesOrders "s1").map
       (fun od => od.items.map LineItem.costAtSale) = some [some 110]) := by
  constructor
  · intro s order item od p hitems hg hst hp
    have h1 : receiveItem order.orderNumber s item =
        .ok (applyReceiptToState order.orderNumber s item p) := by
      simp [receiveItem, hp]
    have hl : receiveLoop order.orderNumber s order.items =
        .ok (applyReceiptToState order.orderNumber s item p) := by
      rw [hitems]
      simp only [receiveLoop, h1]
    refine ⟨_, receiveProductUpdate p item,
      handleReceiveItems_ok_of_loop s order od _ hg hst hl, ?_, rfl, rfl⟩
    show getDoc (applyReceiptToState order.orderNumber s item p).products
      item.productId = some _
    rw [applyReceiptToState_products]
    exact getDoc_setDoc_self _ _ _ p hp
  · exact ⟨by decide, by decide, by decide, by decide, by decide, by decide,
      by decide⟩

/-- Witness for C1: the general receipt formula applied to the scenario's
first receipt (10 units at cost 100 into a fresh product). -/
theorem claim1_witness :
    (poR1.items = [itemR1] ∧
     getDoc scenState0.purchaseOrders poR1.id = some poR1 ∧
     ¬ poR1.status = "Received" ∧
     getDoc scenState0.products itemR1.productId = some newProduct) ∧
    (∃ s' p', handleReceiveItems scenState0 poR1 = .ok s' ∧
      getDoc s'.products itemR1.productId = some p' ∧
      p'.stock = newProduct.stock + itemR1.quantity ∧
      p'.averageCost =
        (if 0 < newProduct.stock + itemR1.quantity then
          ((newProduct.stock : Rat) * newProduct.averageCost +
            (itemR1.quantity : Rat) * itemR1.cost) /
            ((newProduct.stock + itemR1.quantity : Int) : Rat)
        else itemR1.cost)) :=
  ⟨⟨by decide, by decide, by decide, by decide⟩,
   claim1_receipt_formula_and_scenario.1 scenState0 poR1 itemR1 poR1
     newProduct (by decide) (by decide) (by decide) (by decide)⟩

/-- C2: shipping fails with `InsufficientStock` whenever any single line
item's quantity exceeds its product's current stock — even if every other
line item is individually satisfiable — and, the transaction aborting, no
product, order or ledger mutation is committed (an `Except.error` result
carries no new state; the caller's state is untouched).  Quantities of the
order's line items are non-negative, as guaranteed for every order the
application creates (see `finalItems`). -/
theorem claim2_insufficient_stock_aborts (s : DBState) (order : Order)
    (item : LineItem) (p : Product)
    (hmem : item ∈ order.items)
    (hp : getDoc s.products item.productId = some p)
    (hlt : p.stock < item.quantity)
    (hpos : ∀ it ∈ order.items, 0 ≤ it.quantity) :
    handleShipOrder s order = .error .insufficientStock := by
  unfold handleShipOrder
  rw [shipLoop_insufficient order.orderNumber order.items s [] item p hmem
    hp hlt hpos]

/-- Product `p1` with 10 units on hand, used by the C2 witness. -/
def c2Prod : Product := { stock := 10, averageCost := 100, cost := 100 }

/-- A satisfiable line item (1 unit of `p1`). -/
def c2ItemOk : LineItem :=
  { productId := "p1", name := "W", quantity := 1, cost := 0, price := 200,
    costAtSale := none }

/-- An unsatisfiable line item (99 units of `p1`, stock is 10). -/
def c2ItemShort : LineItem :=
  { productId := "p1", name := "W", quantity := 99, cost := 0, price := 200,
    costAtSale := none }

/-- A sales order whose first line item is satisfiable and whose second is
not. -/
def c2Order : Order :=
  { id := "s2", orderNumber := "SO-2", status := "Pending Shipment",
    items := [c2ItemOk, c2ItemShort] }

/-- State for the C2 witness. -/
def c2State : DBState :=
  { products := [("p1", c2Prod)], purchaseOrders := [],
    salesOrders := [("s2", c2Order)], invLogs := [], costLogs := [] }

/-- Witness for C2: a two-item order whose second item exceeds stock is
rejected with `insufficientStock` although its first item is satisfiable. -/
theorem claim2_witness :
    (c2ItemShort ∈ c2Order.items ∧
     getDoc c2State.products c2ItemShort.productId = some c2Prod ∧
     c2Prod.stock < c2ItemShort.quantity ∧
     (∀ it ∈ c2Order.items, 0 ≤ it.quantity)) ∧
    handleShipOrder c2State c2Order = .error .insufficientStock :=
  ⟨⟨by decide, by decide, by decide, by decide⟩,
   claim2_insufficient_stock_aborts c2State c2Order c2ItemShort c2Prod
     (by decide) (by decide) (by decide) (by decide)⟩

/-- The sales order of the C3 evidence: already shipped once, hence stored
with status `Completed` and its line item stamped `costAtSale = 100`. -/
def c3Item : LineItem :=
  { productId := "p1", name := "W", quantity := 2, cost := 0, price := 50,
    costAtSale := some 100 }

/-- The already-completed sales order for the C3 evidence. -/
def c3Order : Order :=
  { id := "s1", orderNumber := "SO-9", status := "Completed",
    items := [c3Item] }

/-- State after a first successful shipment of `c3Order`: stock already
decremented from 10 to 8, the out-entry logged, the order `Completed`. -/
def c3State : DBState :=
  { products := [("p1", { stock := 8, averageCost := 100, cost := 100 })],
    purchaseOrders := [],
    salesOrders := [("s1", c3Order)],
    invLogs := [{ productId := "p1", productName := "W", entryType := "out", change := -2, newStock := 8, relatedDoc := "SO-9" }],
    costLogs := [] }

/-- The state produced by invoking `handleShipOrder` a second time on the
already-completed order. -/
def c3State2 : DBState :=
  (handleShipOrder c3State c3Order).toOption.getD c3State

/-- A purchase order already received, for the receive half of C3. -/
def c3PO : Order :=
  { id := "o1", orderNumber := "PO-9", status := "Received",
    items := [c3Item] }

/-- State holding the already-received purchase order. -/
def c3ReceiveState : DBState :=
  { products := [("p1", { stock := 8, averageCost := 100, cost := 100 })],
    purchaseOrders := [("o1", c3PO)],
    salesOrders := [], invLogs := [], costLogs := [] }

/-- C3 evidence: re-invoking `handleReceiveItems` on an already-`Received`
purchase order is indeed rejected by the status guard at line 1155 with no
mutation — but re-invoking `handleShipOrder` on an already-`Completed`
sales order is NOT rejected: the transaction has no status guard, so the
second invocation succeeds, deducts the stock a second time (8 to 6) and
appends a second inventory-log entry, contradicting the claimed
`OrderNotShippable` rejection. -/
theorem claim3_ship_not_guarded_evidence :
    handleReceiveItems c3ReceiveState c3PO = .error .orderNotReceivable ∧
    (getDoc c3State.salesOrders "s1").map Order.status = some "Completed" ∧
    (handleShipOrder c3State c3Order).isOk = true ∧
    (getDoc c3State2.products "p1").map Product.stock = some 6 ∧
    c3State2.invLogs.length = 2 := by
  refine ⟨by decide, by decide, by decide, by decide, by decide⟩

/-- C4: a purchase order of the system is receivable only in status
`Pending`: for every committed (reachable) state, invoking
`handleReceiveItems` against a stored purchase order whose status is not
`Pending` fails with `OrderNotReceivable` (the transaction throws at its
first statement, so nothing is mutated).  The source's guard at line 1155
literally rejects status `Received`; since `Pending` and `Received` are the
only statuses the application ever assigns to a purchase order (creation at
line 1147, transition at line 1184), the two formulations agree on every
reachable state. -/
theorem claim4_only_pending_receivable (s : DBState) (order : Order)
    (od : Order) (hreach : Reachable s)
    (hg : getDoc s.purchaseOrders order.id = some od)
    (hst : ¬ od.status = "Pending") :
    handleReceiveItems s order = .error .orderNotReceivable := by
  have hps := (reachable_inv s hreach).2.2
  rcases hps order.id od hg with h1 | h1
  · exact absurd h1 hst
  · simp [handleReceiveItems, hg, h1]

/-- State after creating product `p1` in the empty store. -/
def w1State : DBState :=
  { initState with products := addDoc initState.products "p1" newProduct }

/-- The stored purchase order of the reachability chain (10 units of `p1`
at cost 100, status `Pending`). -/
def w2Order : Order :=
  { id := "o1", orderNumber := "PO-1", status := "Pending",
    items := finalItems [itemR1] }

/-- State after additionally creating the purchase order `o1`. -/
def w2State : DBState :=
  { w1State with purchaseOrders := addDoc w1State.purchaseOrders "o1" w2Order }

/-- State after successfully receiving `o1`: stock 10, average cost 100,
both ledgers written, the order `Received`. -/
def w3State : DBState :=
  { products := [("p1", { stock := 10, averageCost := 100, cost := 100 })],
    purchaseOrders := [("o1", { id := "o1", orderNumber := "PO-1", status := "Received", items := [itemR1] })],
    salesOrders := [],
    invLogs := [{ productId := "p1", productName := "W", entryType := "in", change := 10, newStock := 10, relatedDoc := "PO-1" }],
    costLogs := [{ productId := "p1", productName := "W", entryType := "in", relatedDoc := "PO-1", oldAvgCost := 0, newAvgCost := 100 }] }

/-- The state `w3State` is reachable from the empty store: create the
product, create the purchase order, receive it. -/
theorem reachable_w3State : Reachable w3State := by
  have h1 : Step initState w1State :=
    Step.addProduct initState "p1" (by decide)
  have h2 : Step w1State w2State :=
    Step.addPurchaseOrder w1State "o1" "PO-1" [itemR1] (by decide)
  have h3 : Step w2State w3State :=
    Step.receiveOrder w2State w3State w2Order (by decide)
  exact Relation.ReflTransGen.tail
    (Relation.ReflTransGen.tail (Relation.ReflTransGen.single h1) h2) h3

/-- The already-received order stored in `w3State`. -/
def w3Order : Order :=
  { id := "o1", orderNumber := "PO-1", status := "Received",
    items := [itemR1] }

/-- Witness for C4: in the reachable state `w3State` the stored order `o1`
has status `Received`, and a second receive invocation (with the stale
`Pending` snapshot `w2Order` as argument, as a concurrent actor would hold)
is rejected. -/
theorem claim4_witness :
    (getDoc w3State.purchaseOrders w2Order.id = some w3Order ∧
     ¬ w3Order.status = "Pending") ∧
    handleReceiveItems w3State w2Order = .error .orderNotReceivable :=
  ⟨⟨by decide, by decide⟩,
   claim4_only_pending_receivable w3State w2Order w3Order reachable_w3State
     (by decide) (by decide)⟩

/-- C5: in every committed state reachable from the empty store by product
and order creation and successful receipts and shipments, and for every
product, the sum of the `change` fields over that product's inventory-log
entries equals the product's current `stock` — replaying the log
reconstructs stock exactly (receipts append `change = +quantity` with the
resulting balance, shipments `change = -quantity`). -/
theorem claim5_log_reconstructs_stock (s : DBState) (hreach : Reachable s)
    (pid : String) (p : Product) (hp : getDoc s.products pid = some p) :
    changeSum pid s.invLogs = p.stock :=
  (reachable_inv s hreach).1 pid p hp

/-- Witness for C5: in the reachable state `w3State`, the log of `p1` sums
to its stock of 10. -/
theorem claim5_witness :
    changeSum "p1" w3State.invLogs =
      ({ stock := 10, averageCost := 100, cost := 100 } : Product).stock :=
  claim5_log_reconstructs_stock w3State reachable_w3State "p1"
    { stock := 10, averageCost := 100, cost := 100 } (by decide)

theorem totalQty_pos (items : List LineItem) (hne : items ≠ [])
    (hall : ∀ it ∈ items, 0 < it.quantity) : 0 < totalQty items := by
  apply List.sum_pos
  · intro x hx
    obtain ⟨it, hit, rfl⟩ := List.mem_map.mp hx
    exact hall it hit
  · simpa using hne

/-- C6: for every sequence of receipts `R1..Rn` (n at least 1, positive
quantities) applied to the same product starting from zero stock — in
particular line items of one order, which `handleReceiveItems` processes in
the order's list order through this very loop — the final average cost
equals the total cost of all received units divided by the total quantity
received. -/
theorem claim6_weighted_average (onum pid : String)
    (items : List LineItem) (s : DBState) (p : Product)
    (hp : getDoc s.products pid = some p) (hzero : p.stock = 0)
    (hne : items ≠ [])
    (hall : ∀ it ∈ items, it.productId = pid ∧ 0 < it.quantity) :
    ∃ s' p', receiveLoop onum s items = .ok s' ∧
      getDoc s'.products pid = some p' ∧
      p'.averageCost = totalQtyCost items / ((totalQty items : Int) : Rat) := by
  obtain ⟨s', p', hl, hgp, hstock, hsum⟩ :=
    receiveLoop_weighted onum pid items s p hp (by omega) hall
  have hqpos : 0 < totalQty items :=
    totalQty_pos items hne (fun it hit => (hall it hit).2)
  refine ⟨s', p', hl, hgp, ?_⟩
  have hstock2 : p'.stock = totalQty items := by
    rw [hstock, hzero, zero_add]
  have hne0 : ((totalQty items : Int) : Rat) ≠ 0 := by
    simp only [ne_eq, Int.cast_eq_zero]
    omega
  rw [eq_div_iff hne0]
  calc p'.averageCost * ((totalQty items : Int) : Rat)
      = (p'.stock : Rat) * p'.averageCost := by rw [hstock2]; ring
    _ = totalQtyCost items := by
        rw [hsum, hzero]
        simp

/-- Witness for C6: two receipts into a fresh product, 10 units at 100 then
5 at 130, give average cost `1650 / 15 = 110`. -/
theorem claim6_witness :
    (getDoc scenState0.products "p1" = some newProduct ∧
     newProduct.stock = 0 ∧
     ([itemR1, itemR2] : List LineItem) ≠ [] ∧
     (∀ it ∈ [itemR1, itemR2], it.productId = "p1" ∧ 0 < it.quantity)) ∧
    (∃ s' p', receiveLoop "PO-A" scenState0 [itemR1, itemR2] = .ok s' ∧
      getDoc s'.products "p1" = some p' ∧
      p'.averageCost = totalQtyCost [itemR1, itemR2] /
        ((totalQty [itemR1, itemR2] : Int) : Rat)) :=
  ⟨⟨by decide, by decide, by decide, by decide⟩,
   claim6_weighted_average "PO-A" "p1" [itemR1, itemR2] scenState0
     newProduct (by decide) (by decide) (by decide) (by decide)⟩

/-- C7: a successful shipment changes, for each shipped product, only the
`stock` field — new stock is the old stock minus the shipped quantity,
while `averageCost`, `cost` and every other product field are unchanged
(the record update `{ p with stock := .. }` keeps all other fields) —
appends no cost-log entry, and stamps each shipped line item with
`costAtSale` equal to its product's average cost at the moment of shipment
(which, shipments never touching `averageCost`, is the average cost in the
pre-shipment state `s`). -/
theorem claim7_shipment_frame (s : DBState) (order : Order) (s' : DBState)
    (h : handleShipOrder s order = .ok s') :
    (∀ pid p, getDoc s.products pid = some p →
      getDoc s'.products pid =
        some { p with stock := p.stock - shippedQty pid order.items }) ∧
    s'.costLogs = s.costLogs ∧
    (∃ od, getDoc s'.salesOrders order.id = some od ∧
      od.status = "Completed" ∧
      od.items = order.items.map (stampWith s)) := by
  obtain ⟨s1, updatedItems, od, hl, hg, rfl⟩ :=
    handleShipOrder_ok_elim s order s' h
  obtain ⟨hpo, hso, hcl⟩ :=
    shipLoop_ok_frame order.orderNumber order.items s [] s1 updatedItems hl
  refine ⟨?_, hcl, ?_⟩
  · intro pid p hp
    exact shipLoop_ok_product order.orderNumber order.items s [] s1
      updatedItems hl pid p hp
  · refine ⟨{ od with status := "Completed", items := updatedItems },
      ?_, rfl, ?_⟩
    · show getDoc (setDoc s1.salesOrders order.id _) order.id = some _
      exact getDoc_setDoc_self _ _ _ od hg
    · show updatedItems = _
      have := shipLoop_ok_items order.orderNumber order.items s [] s1
        updatedItems hl
      simpa using this

/-- Witness for C7: the scenario's shipment of 12 units leaves
`averageCost = 110` and `cost = 130` untouched while stock drops to 3. -/
theorem claim7_witness :
    handleShipOrder scenState2 soS = .ok scenState3 ∧
    getDoc scenState3.products "p1" =
      some { stock := 3, averageCost := 110, cost := 130 } :=
  ⟨by decide, by
    have h := claim7_shipment_frame scenState2 soS scenState3 (by decide)
    have h2 := h.1 "p1" { stock := 15, averageCost := 110, cost := 130 }
      (by decide)
    exact h2.trans (by decide)⟩

/-- Product for the C8 counterexample: 999999 units at average cost 100. -/
def c8Prod : Product := { stock := 999999, averageCost := 100, cost := 100 }

/-- Receiving one further unit at cost 101 moves the average cost to
`100000001 / 1000000 = 100.000001`, which differs from 100 only past the
fifth decimal place. -/
def c8Item : LineItem :=
  { productId := "p1", name := "W", quantity := 1, cost := 101, price := 0,
    costAtSale := none }

/-- Purchase order of the C8 counterexample. -/
def c8Order : Order :=
  { id := "o8", orderNumber := "PO-8", status := "Pending",
    items := [c8Item] }

/-- State of the C8 counterexample. -/
def c8State : DBState :=
  { products := [("p1", c8Prod)], purchaseOrders := [("o8", c8Order)],
    salesOrders := [], invLogs := [], costLogs := [] }

/-- The committed state of the C8 counterexample's receipt. -/
def c8State2 : DBState :=
  (handleReceiveItems c8State c8Order).toOption.getD c8State

/-- Counterexample to C8 as stated: this receipt changes the average cost
(from 100 to 100.000001), yet no cost-log entry is written, because the
source compares the `toFixed(5)` renderings (line 1176), under which both
round to 100.00000. -/
theorem claim8_counterexample :
    (handleReceiveItems c8State c8Order).isOk = true ∧
    (getDoc c8State2.products "p1").map Product.averageCost ≠
      (getDoc c8State.products "p1").map Product.averageCost ∧
    c8State2.costLogs = [] := by
  refine ⟨by decide, by decide, by decide⟩

/-- C8 as amended: a cost-log entry is appended by a receipt exactly when
the old and the new average cost differ in their `toFixed(5)` renderings
(so values differing only beyond the fifth decimal place are not logged),
and a shipment never appends a cost-log entry. -/
theorem claim8_amended_cost_log_guard :
    (∀ (onum : String) (s : DBState) (item : LineItem) (p : Product)
        (s1 : DBState),
      getDoc s.products item.productId = some p →
      receiveItem onum s item = .ok s1 →
      s1.costLogs =
        (if toFixed5 p.averageCost ≠ toFixed5 (newAvgCostFor p item) then
          s.costLogs ++ [{ productId := item.productId, productName := item.name, entryType := "in", relatedDoc := onum, oldAvgCost := p.averageCost, newAvgCost := newAvgCostFor p item }]
        else s.costLogs)) ∧
    (∀ (s : DBState) (order : Order) (s' : DBState),
      handleShipOrder s order = .ok s' → s'.costLogs = s.costLogs) := by
  constructor
  · intro onum s item p s1 hp hr
    obtain ⟨p0, hp0, rfl⟩ := (receiveItem_ok_iff onum s item s1).mp hr
    obtain rfl : p0 = p := by
      rw [hp0] at hp
      exact Option.some.inj hp
    exact applyReceiptToState_costLogs onum s item p0
  · intro s order s' h
    obtain ⟨s1, updatedItems, od, hl, hg, rfl⟩ :=
      handleShipOrder_ok_elim s order s' h
    exact (shipLoop_ok_frame order.orderNumber order.items s [] s1
      updatedItems hl).2.2

/-- Witness for C8 as amended: the C8 counterexample input satisfies the
`toFixed(5)` guard condition negatively (no entry), and the scenario's
shipment leaves the cost log unchanged. -/
theorem claim8_witness :
    (getDoc c8State.products c8Item.productId = some c8Prod ∧
     receiveItem "PO-8" c8State c8Item =
       .ok ((receiveItem "PO-8" c8State c8Item).toOption.getD c8State) ∧
     handleShipOrder scenState2 soS = .ok scenState3) ∧
    (((receiveItem "PO-8" c8State c8Item).toOption.getD c8State).costLogs =
      (if toFixed5 c8Prod.averageCost ≠
          toFixed5 (newAvgCostFor c8Prod c8Item) then
        c8State.costLogs ++ [{ productId := c8Item.productId, productName := c8Item.name, entryType := "in", relatedDoc := "PO-8", oldAvgCost := c8Prod.averageCost, newAvgCost := newAvgCostFor c8Prod c8Item }]
      else c8State.costLogs) ∧
     scenState3.costLogs = scenState2.costLogs) :=
  ⟨⟨by decide, by decide, by decide⟩,
   claim8_amended_cost_log_guard.1 "PO-8" c8State c8Item c8Prod
     ((receiveItem "PO-8" c8State c8Item).toOption.getD c8State)
     (by decide) (by decide),
   claim8_amended_cost_log_guard.2 scenState2 soS scenState3 (by decide)⟩

/-- A zero-quantity line item for the C9 counterexample. -/
def c9Item : LineItem :=
  { productId := "p1", name := "W", quantity := 0, cost := 50, price := 0,
    costAtSale := none }

/-- A purchase order containing the zero-quantity line item. -/
def c9Order : Order :=
  { id := "o9", orderNumber := "PO-9", status := "Pending",
    items := [c9Item] }

/-- State of the C9 counterexample. -/
def c9State : DBState :=
  { products := [("p1", { stock := 5, averageCost := 10, cost := 10 })],
    purchaseOrders := [("o9", c9Order)],
    salesOrders := [], invLogs := [], costLogs := [] }

/-- The committed state of the C9 counterexample's receipt. -/
def c9State2 : DBState :=
  (handleReceiveItems c9State c9Order).toOption.getD c9State

/-- Counterexample to C9 as stated: an order whose only line item has
quantity 0 is received WITHOUT any error — the transaction contains no
quantity check, so no `InvalidQuantity` failure exists in the code; the
zero quantity is applied as-is (stock stays 5) and a `change = 0`
inventory-log entry is still appended. -/
theorem claim9_counterexample :
    (handleReceiveItems c9State c9Order).isOk = true ∧
    (getDoc c9State2.products "p1").map Product.stock = some 5 ∧
    c9State2.invLogs.length = 1 := by
  refine ⟨by decide, by decide, by decide⟩

/-- C9 as amended: `handleReceiveItems` performs no quantity validation —
it succeeds for any quantities whenever the order is receivable and every
line item's product exists — and non-positive quantities are instead kept
out of orders at creation time: the order form's submission filter
(line 1330) only saves items with a chosen product and a strictly positive
quantity. -/
theorem claim9_amended_no_quantity_check :
    (∀ (s : DBState) (order : Order) (od : Order),
      getDoc s.purchaseOrders order.id = some od →
      ¬ od.status = "Received" →
      (∀ it ∈ order.items, (getDoc s.products it.productId).isSome = true) →
      ∃ s', handleReceiveItems s order = .ok s') ∧
    (∀ (items : List LineItem) (it : LineItem), it ∈ finalItems items →
      it.productId ≠ "" ∧ 0 < it.quantity) := by
  constructor
  · intro s order od hg hst hall
    obtain ⟨s1, hl⟩ := receiveLoop_total order.orderNumber order.items s hall
    exact ⟨_, handleReceiveItems_ok_of_loop s order od s1 hg hst hl⟩
  · intro items it hit
    have := List.of_mem_filter hit
    simpa using this

/-- Witness for C9 as amended: the zero-quantity order of the
counterexample is received successfully, and the form filter keeps the
positive-quantity item while dropping the zero-quantity one. -/
theorem claim9_witness :
    (getDoc c9State.purchaseOrders c9Order.id = some c9Order ∧
     ¬ c9Order.status = "Received" ∧
     (∀ it ∈ c9Order.items,
       (getDoc c9State.products it.productId).isSome = true)) ∧
    (∃ s', handleReceiveItems c9State c9Order = .ok s') ∧
    (itemR1 ∈ finalItems [itemR1, c9Item] ∧
     (itemR1.productId ≠ "" ∧ 0 < itemR1.quantity) ∧
     c9Item ∉ finalItems [itemR1, c9Item]) :=
  ⟨⟨by decide, by decide, by decide⟩,
   claim9_amended_no_quantity_check.1 c9State c9Order c9Order (by decide)
     (by decide) (by decide),
   by decide,
   claim9_amended_no_quantity_check.2 [itemR1, c9Item] itemR1 (by decide),
   by decide⟩

/-- C10: a committed receipt writes a third product field beyond `stock`
and `averageCost`: the product's `cost` field is overwritten with the
received line item's unit cost (line 1168), the LAST matching line item
winning when the product occurs in several line items of the order; and
this stored `cost` is exactly the value the order form later offers as the
default unit cost when the product is chosen in a new draft
(`handleItemChange`, line 1312). -/
theorem claim10_cost_overwrite (s : DBState) (order : Order) (s' : DBState)
    (pid : String) (p : Product) (item : LineItem)
    (h : handleReceiveItems s order = .ok s')
    (hp : getDoc s.products pid = some p)
    (hlast : lastItemFor pid order.items = some item) :
    ∃ p', getDoc s'.products pid = some p' ∧ p'.cost = item.cost ∧
      orderFormItemCost p' = item.cost := by
  obtain ⟨od, s1, hg, hst, hl, rfl⟩ := handleReceiveItems_ok_elim s order s' h
  obtain ⟨p', hgp, hcost⟩ :=
    receiveLoop_cost order.orderNumber order.items s s1 hl pid p hp
  rw [hlast] at hcost
  exact ⟨p', hgp, hcost, hcost⟩

/-- A purchase order receiving the same product twice (10 at 100, then 5 at
130), for the C10 witness. -/
def c10Order : Order :=
  { id := "oa", orderNumber := "PO-A", status := "Pending",
    items := [itemR1, itemR2] }

/-- State of the C10 witness. -/
def c10State : DBState :=
  { products := [("p1", newProduct)], purchaseOrders := [("oa", c10Order)],
    salesOrders := [], invLogs := [], costLogs := [] }

/-- The committed state of the C10 witness's receipt. -/
def c10State2 : DBState :=
  (handleReceiveItems c10State c10Order).toOption.getD c10State

/-- Witness for C10: after receiving the two-line-item order, `cost` is the
last line item's unit cost, 130, and that value is the draft default. -/
theorem claim10_witness :
    (handleReceiveItems c10State c10Order = .ok c10State2 ∧
     getDoc c10State.products "p1" = some newProduct ∧
     lastItemFor "p1" c10Order.items = some itemR2) ∧
    (∃ p', getDoc c10State2.products "p1" = some p' ∧
      p'.cost = itemR2.cost ∧ orderFormItemCost p' = itemR2.cost) :=
  ⟨⟨by decide, by decide, by decide⟩,
   claim10_cost_overwrite c10State c10Order c10State2 "p1" newProduct
     itemR2 (by decide) (by decide) (by decide)⟩

end OkingInventory
